import Mathlib

/-!
Shallow embedding of the safety-critical core of the vantage6 repository:

* the node proxy server handlers in joey/node/proxy_server.py
  (proxy_task, proxy_results, proxy),
* the permission check User.can in vantage6-server/vantage6/server/model/user.py,
* the endpoint guard only_for in vantage6-server/vantage6/server/resource/__init__.py.

Outbound HTTP traffic is represented by oracle functions supplied as
parameters (the key-lookup service and the coordinator), and each handler
returns both the list of outbound calls it issued and its outcome, so that
theorems can speak about what was sent over the network and what the caller
received.  Unhandled Python exceptions are modelled as an explicit
pyError outcome carrying the exception kind.
-/

namespace Vantage6

/-- JSON values, as produced by flask request.get_json and requests Response.json. -/
inductive JValue where
  | null
  | bool (b : Bool)
  | num (n : Int)
  | str (s : String)
  | arr (elems : List JValue)
  | obj (fields : List (String × JValue))

/-- Python truthiness of a JSON value, as tested by the if-not checks in proxy_task. -/
def JValue.truthy : JValue → Bool
  | .null => false
  | .bool b => b
  | .num n => n != 0
  | .str s => s != ""
  | .arr elems => !elems.isEmpty
  | .obj fields => !fields.isEmpty

/-- Python test `not x` applied to `d.get(k, None)`: true when the key is absent
or when the present value is falsy. -/
def pyFalsy : Option JValue → Bool
  | none => true
  | some v => !v.truthy

/-- One element of the organizations list of a create-task payload.  The code
reads the id and input keys with dict.get and rewrites only the input key;
all remaining keys are carried through unchanged in rest. -/
structure OrgEntry where
  id : Option JValue
  input : Option JValue
  rest : List (String × JValue)

/-- The JSON body of a create-task request: the organizations key (absent when
the dict has no such key) plus all remaining keys, carried through unchanged. -/
structure TaskPayload where
  organizations : Option (List OrgEntry)
  rest : List (String × JValue)

/-- Outcome of an outbound HTTP request followed by Response.json: either the
call (or the JSON decoding) raised, or it produced a JSON body. -/
inductive HttpResult where
  | raise
  | resp (body : JValue)

/-- Outcome of GET url/organization/id followed by Response.json, which the
code immediately subjects to dict.get, so a successful body is an object. -/
inductive KeyFetch where
  | raise
  | resp (fields : List (String × JValue))

/-- Whether the key fetch produced a JSON object body. -/
def KeyFetch.isResp : KeyFetch → Bool
  | .raise => false
  | .resp _ => true

/-- Outbound calls issued by proxy_task. -/
inductive Call where
  | keyLookup (orgId : Option JValue)
  | postTask (auth : String) (payload : TaskPayload)

/-- What the handler hands back to flask: a jsonify body, a bare return
(Python None), or an unhandled exception of the named kind. -/
inductive ProxyOutcome where
  | json (body : JValue)
  | noneReturn
  | pyError (exn : String)

/-- Result of one invocation of proxy_task: the outbound calls it issued, in
order, and its outcome. -/
structure TaskResult where
  calls : List Call
  outcome : ProxyOutcome

/-- The public key the code extracts for an entry: the public_key field of the
key-service response body, absent when the fetch raised or the field is missing. -/
def fetchedKey (keyService : Option JValue → KeyFetch) (e : OrgEntry) : Option JValue :=
  match keyService e.id with
  | .raise => none
  | .resp body => List.lookup "public_key" body

/-- The rewrite proxy_task applies to one organizations entry on the happy
path: the input field is replaced by the encryption of its value under the
key fetched for that entry (getD is never exercised at null, since the code
only reaches the encryption after the truthiness check on input). -/
def encryptEntry (keyService : Option JValue → KeyFetch)
    (encrypt : JValue → Option JValue → JValue) (e : OrgEntry) : OrgEntry :=
  { e with input := some (encrypt (e.input.getD .null) (fetchedKey keyService e)) }

/-- Result of the per-organization loop of proxy_task: either every entry was
encrypted (carrying the rewritten entries, the key-lookup calls, and the body
of the last key-service response, which is what the local variable response
holds when the loop exits), or the loop aborted with a bare return on a
missing or falsy input, or an unhandled exception from the key fetch. -/
inductive LoopResult where
  | ok (encrypted : List OrgEntry) (calls : List Call)
      (lastResp : Option (List (String × JValue)))
  | abortNoInput (calls : List Call)
  | abortRaise (calls : List Call)

/-- The outbound calls recorded in a loop result. -/
def LoopResult.calls : LoopResult → List Call
  | .ok _ calls _ => calls
  | .abortNoInput calls => calls
  | .abortRaise calls => calls

/-- The for-loop of proxy_task over the organizations list, in list order:
check truthiness of input, fetch the public key, encrypt, substitute. -/
def encryptLoop (keyService : Option JValue → KeyFetch)
    (encrypt : JValue → Option JValue → JValue) : List OrgEntry → LoopResult
  | [] => .ok [] [] none
  | e :: es =>
    if pyFalsy e.input then
      .abortNoInput []
    else
      match keyService e.id with
      | .raise => .abortRaise [Call.keyLookup e.id]
      | .resp body =>
        match encryptLoop keyService encrypt es with
        | .ok encrypted calls lastResp =>
          let encInput := encrypt (e.input.getD .null) (List.lookup "public_key" body)
          .ok ({ e with input := some encInput } :: encrypted)
              (Call.keyLookup e.id :: calls)
              (match lastResp with
               | some b => some b
               | none => some body)
        | .abortNoInput calls => .abortNoInput (Call.keyLookup e.id :: calls)
        | .abortRaise calls => .abortRaise (Call.keyLookup e.id :: calls)

/-- The POST /task handler proxy_task of proxy_server.py.  Parameters:
the key-service oracle (outcome of GET url/organization/id per entry), the
encryption function of the configured cryptor, the outcome of the final POST
to the coordinator if it is issued, the Authorization header of the inbound
request (absent means the dict access raises KeyError), and the JSON body.
When the final POST raises, the code falls through to jsonify on the local
variable response, which at that point holds the response of the last
key lookup performed in the loop. -/
def proxy_task (keyService : Option JValue → KeyFetch)
    (encrypt : JValue → Option JValue → JValue) (postResult : HttpResult)
    (auth : Option String) (payload : TaskPayload) : TaskResult :=
  match auth with
  | none => { calls := [], outcome := .pyError "KeyError" }
  | some a =>
    match payload.organizations with
    | none => { calls := [], outcome := .noneReturn }
    | some orgs =>
      if orgs.isEmpty then { calls := [], outcome := .noneReturn }
      else
        match encryptLoop keyService encrypt orgs with
        | .abortNoInput calls => { calls := calls, outcome := .noneReturn }
        | .abortRaise calls =>
          { calls := calls, outcome := .pyError "requests.ConnectionError" }
        | .ok encrypted calls lastResp =>
          let forwarded : TaskPayload := { payload with organizations := some encrypted }
          let allCalls := calls ++ [Call.postTask a forwarded]
          match postResult with
          | .resp body => { calls := allCalls, outcome := .json body }
          | .raise =>
            match lastResp with
            | some lastBody =>
              { calls := allCalls, outcome := .json (JValue.obj lastBody) }
            | none => { calls := allCalls, outcome := .pyError "UnboundLocalError" }

/-- The GET /result/id handler proxy_results of proxy_server.py.  When the
outbound GET raises, the exception is caught and logged, and the function
then evaluates jsonify on the local variable response, which was never
assigned: an UnboundLocalError propagates. -/
def proxy_results (getResult : HttpResult) (auth : Option String)
    (id : Int) : ProxyOutcome :=
  match auth, id with
  | none, _ => .pyError "KeyError"
  | some _, _ =>
    match getResult with
    | .resp body => .json body
    | .raise => .pyError "UnboundLocalError"

/-- ASCII lowercasing of one character, the effect of the Python str.lower
call of the generic handler on the characters HTTP method names are built
from. -/
def asciiLowerChar (c : Char) : Char :=
  if 65 ≤ c.toNat ∧ c.toNat ≤ 90 then Char.ofNat (c.toNat + 32) else c

/-- ASCII lowercasing of a string, the effect of request.method.lower(). -/
def asciiLower (s : String) : String :=
  ⟨s.data.map asciiLowerChar⟩

/-- Outbound HTTP methods of the requests library used by the generic handler. -/
inductive HttpMethod where
  | get
  | post
  | patch
  | put
  | delete
  deriving DecidableEq

/-- The method dispatch table of the generic handler, keyed by the lowercased
inbound method name. -/
def methodTable : List (String × HttpMethod) :=
  [("get", .get), ("post", .post), ("patch", .patch), ("put", .put), ("delete", .delete)]

/-- The single outbound call issued by the generic handler. -/
structure GenericCall where
  method : HttpMethod
  url : String
  params : List (String × String)
  body : Option JValue
  auth : Option String

/-- Result of one invocation of the generic handler: whether the
missing-Authorization log line fired, the outbound call issued, and the
outcome handed back to flask. -/
structure GenericResult where
  warnedNoAuth : Bool
  call : GenericCall
  outcome : ProxyOutcome

/-- The catch-all handler proxy of proxy_server.py.  The inbound method name
is lowercased and looked up in the dispatch table, defaulting to GET; path,
query parameters, JSON body and the Authorization header value are passed to
the outbound call unchanged.  A missing Authorization header is logged and
Python None is used as the header value, which the requests library treats
as the header being absent, so the outbound auth is none, not an empty
string.  When the outbound call raises, the handler logs and does a bare
return. -/
def proxy (netResult : HttpResult) (baseUrl : String) (methodName : String)
    (path : String) (params : List (String × String)) (body : Option JValue)
    (auth : Option String) : GenericResult :=
  let m := (List.lookup (asciiLower methodName) methodTable).getD .get
  let warned := auth.isNone
  let call : GenericCall :=
    { method := m, url := baseUrl ++ "/" ++ path, params := params,
      body := body, auth := auth }
  let outcome : ProxyOutcome :=
    match netResult with
    | .raise => .noneReturn
    | .resp b => .json b
  { warnedNoAuth := warned, call := call, outcome := outcome }

/-- Modelled from the spec: the Scope enum of vantage6.server.model.rule,
whose source file is not under src (only its importer user.py is); the spec
data model gives the ordered enum Global, Organization, Collaboration, Own. -/
inductive Scope where
  | global
  | organization
  | collaboration
  | own
  deriving DecidableEq

/-- Modelled from the spec: the Operation enum of vantage6.server.model.rule,
whose source file is not under src; the spec gives Create, Read, Update, Delete. -/
inductive Operation where
  | create
  | read
  | update
  | delete
  deriving DecidableEq

/-- Modelled from the spec: a catalog Rule of vantage6.server.model.rule, an
immutable triple uniquely identified by resource, scope and operation. -/
structure Rule where
  resource : String
  scope : Scope
  operation : Operation
  deriving DecidableEq

/-- Modelled from the spec: a Role of vantage6.server.model.role, a named
bundle of catalog rules assignable to a user. -/
structure Role where
  name : String
  rules : List Rule
  deriving DecidableEq

/-- The rule and role relationships of the User model of user.py; the
remaining columns play no part in the permission check. -/
structure User where
  rules : List Rule
  roles : List Role
  deriving DecidableEq

/-- Modelled from the spec: the catalog query Rule.get_by_ of
vantage6.server.model.rule, whose source file is not under src; the spec
external-interface contract is ruleExists(resource, scope, operation)
returning the catalog Rule or none. -/
def Rule.get_by_ (catalog : List Rule) (resource : String) (scope : Scope)
    (operation : Operation) : Option Rule :=
  catalog.find? fun rl =>
    rl.resource == resource && rl.scope == scope && rl.operation == operation

/-- The permission check User.can of user.py: fetch the catalog rule for the
requested triple, then test membership in the direct rules or in the rules
of any of the roles.  When the catalog holds no such rule, the Python
membership tests compare None against rule objects and are all False. -/
def User.can (catalog : List Rule) (u : User) (resource : String) (scope : Scope)
    (operation : Operation) : Bool :=
  match Rule.get_by_ catalog resource scope operation with
  | none => false
  | some rule => u.rules.contains rule || u.roles.any fun role => role.rules.contains rule

/-- The union of the direct rules and the role-derived rules of a user, the
effectiveRules of the spec data model. -/
def User.effectiveRules (u : User) : List Rule :=
  u.rules ++ (u.roles.map Role.rules).flatten

/-- The decoded JWT of an inbound coordinator request: the client_type claim
and the identity (the id of the user or node record, or the container claims
reduced to their node id). -/
structure JwtClaims where
  clientType : String
  identity : Nat
  deriving DecidableEq

/-- Outcome of the only_for guard: either the wrapped handler runs, with the
flask globals g.type, g.user, g.node, g.container set as recorded, or an
exception propagates out of the decorator. -/
inductive GuardOutcome where
  | proceed (gtype : String) (guser : Option Nat) (gnode : Option Nat)
      (gcontainer : Option Nat)
  | raised (msg : String)
  deriving DecidableEq

/-- The endpoint guard only_for of resource/__init__.py, applied to decoded
claims.  The dbType oracle gives the polymorphic type column of the
Authenticatable record looked up for a user or node identity (the last-seen
update performed by that lookup is a side effect outside this model).  A
client type outside the allow-set raises a plain Exception built from an
f-string (the url and method interpolations are elided here); a type
mismatch with the looked-up record fires an assert. -/
def only_for (dbType : Nat → String) (types : List String)
    (claims : JwtClaims) : GuardOutcome :=
  let t := claims.clientType
  if types.contains t = false then
    .raised (t ++ "s are not allowed to access this endpoint")
  else if t = "user" then
    if dbType claims.identity = "user" then
      .proceed t (some claims.identity) none none
    else
      .raised "AssertionError"
  else if t = "node" then
    if dbType claims.identity = "node" then
      .proceed t none (some claims.identity) none
    else
      .raised "AssertionError"
  else if t = "container" then
    .proceed t none none (some claims.identity)
  else
    .raised ("Unknown entity: " ++ t)

/-! Concrete instances used by the witnesses and the concrete evaluations. -/

/-- A concrete key service: organization 1 has public key pubA, every other
organization has public key pubB, and no fetch raises. -/
def demoKeyService : Option JValue → KeyFetch
  | some (.num 1) => .resp [("public_key", .str "pubA")]
  | _ => .resp [("public_key", .str "pubB")]

/-- A concrete injective stand-in for the cryptor: the ciphertext records the
plaintext and the key it was encrypted under. -/
def demoEncrypt (v : JValue) (key : Option JValue) : JValue :=
  .arr [.str "enc", v, key.getD .null]

/-- A concrete Authenticatable type column: record 3 is a node, every other
record is a user. -/
def demoDbType : Nat → String :=
  fun n => if n == 3 then "node" else "user"

/-- A concrete rule catalog for the permission witnesses. -/
def demoCatalog : List Rule :=
  [{ resource := "task", scope := .global, operation := .create },
   { resource := "task", scope := .organization, operation := .read },
   { resource := "node", scope := .global, operation := .delete }]

/-- A concrete role bundling one catalog rule. -/
def demoRole : Role :=
  { name := "researcher",
    rules := [{ resource := "task", scope := .organization, operation := .read }] }

/-- A concrete user with one direct rule and one role. -/
def demoUser : User :=
  { rules := [{ resource := "task", scope := .global, operation := .create }],
    roles := [demoRole] }

/-- The spec example payload: organizations 1 and 2 with inputs a and b. -/
def demoEntries : List OrgEntry :=
  [{ id := some (.num 1), input := some (.str "a"), rest := [] },
   { id := some (.num 2), input := some (.str "b"), rest := [] }]

/-- The processable first entry of the sequential-abort witness payload. -/
def demoSeqPre : List OrgEntry :=
  [{ id := some (.num 1), input := some (.str "a"), rest := [] }]

/-- The failing second entry of the sequential-abort witness payload. -/
def demoSeqBad : OrgEntry :=
  { id := some (.num 2), input := none, rest := [] }

/-- The never-reached third entry of the sequential-abort witness payload. -/
def demoSeqPost : List OrgEntry :=
  [{ id := some (.num 3), input := some (.str "c"), rest := [] }]

/-- The sequential-abort witness payload. -/
def demoSeqPayload : TaskPayload :=
  { organizations := some (demoSeqPre ++ demoSeqBad :: demoSeqPost), rest := [] }


/-! Theorems. -/

/-- C2: at a malformed payload the code makes zero outbound calls, but it
reports no MalformedPayload error to the caller: it logs and does a bare
return, so the caller receives nothing.  Evaluated at organizations equal to
the empty list, at organizations absent, and at an entry without input. -/
theorem proxy_task_malformed_silently_dropped :
    (proxy_task demoKeyService demoEncrypt (.resp (.str "ok")) (some "tok")
        { organizations := some [], rest := [] } =
      { calls := [], outcome := .noneReturn }) ∧
    (proxy_task demoKeyService demoEncrypt (.resp (.str "ok")) (some "tok")
        { organizations := none, rest := [] } =
      { calls := [], outcome := .noneReturn }) ∧
    (proxy_task demoKeyService demoEncrypt (.resp (.str "ok")) (some "tok")
        { organizations := some [{ id := some (.num 1), input := none, rest := [] }],
          rest := [] } =
      { calls := [], outcome := .noneReturn }) :=
  ⟨rfl, rfl, rfl⟩

/-- C4: when the key service answers with a body that has no public_key
field, the code does not abort with a LookupError: it substitutes the absent
key (Python None) into the encryption call and forwards the task built from
that ciphertext to the coordinator. -/
theorem proxy_task_missing_public_key_encrypts_with_none :
    proxy_task (fun _ => .resp [("id", .num 1)]) demoEncrypt
        (.resp (.str "created")) (some "tok")
        { organizations := some
            [{ id := some (.num 1), input := some (.str "secret"), rest := [] }],
          rest := [] } =
      { calls := [Call.keyLookup (some (.num 1)),
          Call.postTask "tok"
            { organizations := some
                [{ id := some (.num 1),
                   input := some (demoEncrypt (.str "secret") none), rest := [] }],
              rest := [] }],
        outcome := .json (.str "created") } :=
  rfl

/-- C6: the guard wired as only_for over the node kind classifies correctly,
but a disallowed kind is rejected by raising a plain Exception, an unhandled
fault, not by returning a typed rejection; a node principal proceeds. -/
theorem only_for_node_guard_raises_on_wrong_kind :
    (only_for demoDbType ["node"] { clientType := "user", identity := 7 } =
      .raised "users are not allowed to access this endpoint") ∧
    (only_for demoDbType ["node"] { clientType := "container", identity := 8 } =
      .raised "containers are not allowed to access this endpoint") ∧
    (only_for demoDbType ["node"] { clientType := "node", identity := 3 } =
      .proceed "node" none (some 3) none) := by
  decide

/-- C7: when the outbound coordinator call of the result-fetch handler
raises, the handler catches and logs, then evaluates jsonify on the local
variable response that was never assigned, so an UnboundLocalError
propagates instead of any well-defined failure result. -/
theorem proxy_results_raise_leaves_response_unbound :
    proxy_results .raise (some "tok") 42 = ProxyOutcome.pyError "UnboundLocalError" :=
  rfl

/-- On a list of entries that all carry a truthy input and whose key fetches
all answer, the loop encrypts every entry in order and issues exactly one key
lookup per entry. -/
theorem encryptLoop_ok (keyService : Option JValue → KeyFetch)
    (encrypt : JValue → Option JValue → JValue) :
    ∀ entries : List OrgEntry,
      (∀ e ∈ entries, pyFalsy e.input = false ∧ (keyService e.id).isResp = true) →
      ∃ last, encryptLoop keyService encrypt entries =
        .ok (entries.map (encryptEntry keyService encrypt))
            (entries.map fun e => Call.keyLookup e.id) last := by
  intro entries
  induction entries with
  | nil => exact fun _ => ⟨none, rfl⟩
  | cons e es ih =>
    intro h
    obtain ⟨h1, h2⟩ := h e (List.mem_cons_self e es)
    obtain ⟨last, hl⟩ := ih fun x hx => h x (List.mem_cons_of_mem e hx)
    cases hk : keyService e.id with
    | raise => rw [hk] at h2; exact absurd h2 (by simp [KeyFetch.isResp])
    | resp body =>
      refine ⟨match last with | some b => some b | none => some body, ?_⟩
      simp only [encryptLoop, h1, Bool.false_eq_true, if_false, hk, hl, List.map_cons]
      simp only [encryptEntry, fetchedKey, hk, LoopResult.ok.injEq]
      refine ⟨trivial, trivial, ?_⟩
      cases last <;> rfl

/-- C1: on a payload whose organizations list is nonempty, whose entries all
carry truthy inputs, and whose key fetches all answer with a body holding a
public_key, proxy_task issues one key lookup per entry in list order and then
a single POST of the payload in which every input has been replaced by the
encryption of that input under the key fetched for that entry, carrying the
original Authorization credential unchanged, and hands the coordinator
response body back to the caller. -/
theorem proxy_task_forwards_encrypted (keyService : Option JValue → KeyFetch)
    (encrypt : JValue → Option JValue → JValue) (a : String)
    (payload : TaskPayload) (entries : List OrgEntry) (respBody : JValue)
    (horgs : payload.organizations = some entries) (hne : entries ≠ [])
    (hgood : ∀ e ∈ entries, pyFalsy e.input = false ∧
      (keyService e.id).isResp = true ∧ (fetchedKey keyService e).isSome = true) :
    proxy_task keyService encrypt (.resp respBody) (some a) payload =
      { calls := (entries.map fun e => Call.keyLookup e.id) ++
          [Call.postTask a
            { payload with
              organizations := some (entries.map (encryptEntry keyService encrypt)) }],
        outcome := .json respBody } := by
  obtain ⟨last, hloop⟩ :=
    encryptLoop_ok keyService encrypt entries
      fun e he => ⟨(hgood e he).1, (hgood e he).2.1⟩
  have hempty : entries.isEmpty = false := by
    cases entries with
    | nil => exact absurd rfl hne
    | cons x xs => rfl
  simp only [proxy_task, horgs, hempty, Bool.false_eq_true, if_false, hloop]

/-- When every entry before the bad one is processable but the bad entry has
an absent or falsy input, the loop stops with a bare-return abort right at
the bad entry: it has issued exactly one key lookup per earlier entry and
none for the bad entry or anything after it. -/
theorem encryptLoop_abort_input (keyService : Option JValue → KeyFetch)
    (encrypt : JValue → Option JValue → JValue) :
    ∀ pre : List OrgEntry,
      (∀ e ∈ pre, pyFalsy e.input = false ∧ (keyService e.id).isResp = true) →
      ∀ (bad : OrgEntry) (post : List OrgEntry), pyFalsy bad.input = true →
      encryptLoop keyService encrypt (pre ++ bad :: post) =
        .abortNoInput (pre.map fun e => Call.keyLookup e.id) := by
  intro pre
  induction pre with
  | nil =>
    intro _ bad post hbad
    simp [encryptLoop, hbad]
  | cons e es ih =>
    intro h bad post hbad
    obtain ⟨h1, h2⟩ := h e (List.mem_cons_self e es)
    cases hk : keyService e.id with
    | raise => rw [hk] at h2; exact absurd h2 (by simp [KeyFetch.isResp])
    | resp body =>
      have hrec := ih (fun x hx => h x (List.mem_cons_of_mem e hx)) bad post hbad
      simp only [List.cons_append, encryptLoop, h1, Bool.false_eq_true, if_false,
        hk, List.map_cons]
      rw [List.append_eq, hrec]

/-- When every entry before the bad one is processable, the bad entry has a
truthy input, but its key fetch raises, the loop stops with an unhandled
exception right at the bad entry: the key lookups issued are those of the
earlier entries followed by the one that raised, and nothing after. -/
theorem encryptLoop_abort_raise (keyService : Option JValue → KeyFetch)
    (encrypt : JValue → Option JValue → JValue) :
    ∀ pre : List OrgEntry,
      (∀ e ∈ pre, pyFalsy e.input = false ∧ (keyService e.id).isResp = true) →
      ∀ (bad : OrgEntry) (post : List OrgEntry),
      pyFalsy bad.input = false → keyService bad.id = .raise →
      encryptLoop keyService encrypt (pre ++ bad :: post) =
        .abortRaise ((pre.map fun e => Call.keyLookup e.id) ++ [Call.keyLookup bad.id]) := by
  intro pre
  induction pre with
  | nil =>
    intro _ bad post hbad hraise
    simp [encryptLoop, hbad, hraise]
  | cons e es ih =>
    intro h bad post hbad hraise
    obtain ⟨h1, h2⟩ := h e (List.mem_cons_self e es)
    cases hk : keyService e.id with
    | raise => rw [hk] at h2; exact absurd h2 (by simp [KeyFetch.isResp])
    | resp body =>
      have hrec := ih (fun x hx => h x (List.mem_cons_of_mem e hx)) bad post hbad hraise
      simp only [List.cons_append, encryptLoop, h1, Bool.false_eq_true, if_false,
        hk, List.map_cons, List.cons_append]
      rw [List.append_eq, hrec]

/-- C3: the per-organization loop runs strictly in list order, and a failure
at one entry aborts the request before any later entry is touched and before
any coordinator contact.  When the failing entry lacks a truthy input, the
outbound traffic is exactly one key lookup per earlier entry and the caller
gets the bare return; when its key fetch raises, the outbound traffic is
those lookups plus the raising one and the exception propagates.  In neither
case does any POST to the task endpoint appear. -/
theorem proxy_task_sequential_abort (keyService : Option JValue → KeyFetch)
    (encrypt : JValue → Option JValue → JValue) (postResult : HttpResult)
    (a : String) (payload : TaskPayload) (pre post : List OrgEntry)
    (bad : OrgEntry)
    (horgs : payload.organizations = some (pre ++ bad :: post))
    (hpre : ∀ e ∈ pre, pyFalsy e.input = false ∧ (keyService e.id).isResp = true) :
    (pyFalsy bad.input = true →
      proxy_task keyService encrypt postResult (some a) payload =
        { calls := pre.map fun e => Call.keyLookup e.id, outcome := .noneReturn }) ∧
    (pyFalsy bad.input = false → keyService bad.id = .raise →
      proxy_task keyService encrypt postResult (some a) payload =
        { calls := (pre.map fun e => Call.keyLookup e.id) ++ [Call.keyLookup bad.id],
          outcome := .pyError "requests.ConnectionError" }) := by
  have hempty : (pre ++ bad :: post).isEmpty = false := by
    cases pre <;> rfl
  constructor
  · intro hbad
    have hloop := encryptLoop_abort_input keyService encrypt pre hpre bad post hbad
    simp only [proxy_task, horgs, hempty, Bool.false_eq_true, if_false, hloop]
  · intro hbad hraise
    have hloop := encryptLoop_abort_raise keyService encrypt pre hpre bad post hbad hraise
    simp only [proxy_task, horgs, hempty, Bool.false_eq_true, if_false, hloop]

/-- The loop cannot tell one entry with an absent-or-falsy input from
another: the truthiness test fires before the input value is ever used. -/
theorem encryptLoop_congr_falsy (keyService : Option JValue → KeyFetch)
    (encrypt : JValue → Option JValue → JValue) :
    ∀ (xs : List OrgEntry) (e1 e2 : OrgEntry) (post : List OrgEntry),
      e1.id = e2.id → e1.rest = e2.rest →
      pyFalsy e1.input = true → pyFalsy e2.input = true →
      encryptLoop keyService encrypt (xs ++ e1 :: post) =
        encryptLoop keyService encrypt (xs ++ e2 :: post) := by
  intro xs
  induction xs with
  | nil =>
    intro e1 e2 post _ _ h1 h2
    simp [encryptLoop, h1, h2]
  | cons x xs ih =>
    intro e1 e2 post hid hrest h1 h2
    have hrec := ih e1 e2 post hid hrest h1 h2
    simp only [List.cons_append, encryptLoop]
    rw [List.append_eq, List.append_eq, hrec]

/-- A list holding an entry with an absent-or-falsy input never completes the
loop: the result is one of the two aborts. -/
theorem encryptLoop_not_ok (keyService : Option JValue → KeyFetch)
    (encrypt : JValue → Option JValue → JValue) :
    ∀ (xs : List OrgEntry) (bad : OrgEntry) (post : List OrgEntry),
      pyFalsy bad.input = true →
      ∀ encrypted calls lastResp,
        encryptLoop keyService encrypt (xs ++ bad :: post) ≠
          .ok encrypted calls lastResp := by
  intro xs
  induction xs with
  | nil =>
    intro bad post hbad encrypted calls lastResp
    simp [encryptLoop, hbad]
  | cons x xs ih =>
    intro bad post hbad encrypted calls lastResp
    simp only [List.cons_append, encryptLoop]
    cases hpx : pyFalsy x.input with
    | true => simp
    | false =>
      simp only [Bool.false_eq_true, if_false]
      cases hk : keyService x.id with
      | raise => simp
      | resp body =>
        rw [List.append_eq]
        cases hrec : encryptLoop keyService encrypt (xs ++ bad :: post) with
        | ok enc2 calls2 last2 => exact absurd hrec (ih bad post hbad enc2 calls2 last2)
        | abortNoInput calls2 => simp
        | abortRaise calls2 => simp

/-- Every outbound call recorded by the loop is a key lookup: the loop never
contacts the task endpoint of the coordinator. -/
theorem encryptLoop_calls_are_lookups (keyService : Option JValue → KeyFetch)
    (encrypt : JValue → Option JValue → JValue) :
    ∀ entries : List OrgEntry,
      ∀ c ∈ (encryptLoop keyService encrypt entries).calls,
        ∃ oid, c = Call.keyLookup oid := by
  intro entries
  induction entries with
  | nil => intro c hc; exact absurd hc (by simp [encryptLoop, LoopResult.calls])
  | cons e es ih =>
    intro c hc
    by_cases hpe : pyFalsy e.input = true
    · rw [show encryptLoop keyService encrypt (e :: es) = .abortNoInput [] by
        simp [encryptLoop, hpe]] at hc
      exact absurd hc (by simp [LoopResult.calls])
    · have hpe2 : pyFalsy e.input = false := by
        cases hx : pyFalsy e.input
        · rfl
        · exact absurd hx hpe
      cases hk : keyService e.id with
      | raise =>
        rw [show encryptLoop keyService encrypt (e :: es) =
            .abortRaise [Call.keyLookup e.id] by simp [encryptLoop, hpe2, hk]] at hc
        simp only [LoopResult.calls, List.mem_singleton] at hc
        exact ⟨e.id, hc⟩
      | resp body =>
        have hshape : (encryptLoop keyService encrypt (e :: es)).calls =
            Call.keyLookup e.id :: (encryptLoop keyService encrypt es).calls := by
          simp only [encryptLoop, hpe2, Bool.false_eq_true, if_false, hk]
          cases encryptLoop keyService encrypt es <;> rfl
        rw [hshape] at hc
        rcases List.mem_cons.mp hc with h | h
        · exact ⟨e.id, h⟩
        · exact ih c h

/-- C10: the malformed-payload test of proxy_task is truthiness, not
presence.  A present-but-empty organizations list behaves exactly like an
absent one; an entry whose input is present but falsy behaves exactly like
an entry without input; and a payload holding such an entry is never relayed
to the task endpoint of the coordinator. -/
theorem proxy_task_falsy_like_absent (keyService : Option JValue → KeyFetch)
    (encrypt : JValue → Option JValue → JValue) (postResult : HttpResult)
    (a : String) (payload : TaskPayload) (xs post : List OrgEntry)
    (bad : OrgEntry) (v : JValue) :
    (proxy_task keyService encrypt postResult (some a)
        { payload with organizations := some [] } =
      proxy_task keyService encrypt postResult (some a)
        { payload with organizations := none }) ∧
    (v.truthy = false →
      proxy_task keyService encrypt postResult (some a)
        { payload with organizations := some (xs ++ { bad with input := some v } :: post) } =
      proxy_task keyService encrypt postResult (some a)
        { payload with organizations := some (xs ++ { bad with input := none } :: post) }) ∧
    (pyFalsy bad.input = true →
      ∀ c ∈ (proxy_task keyService encrypt postResult (some a)
          { payload with organizations := some (xs ++ bad :: post) }).calls,
        ∀ auth2 p2, c ≠ Call.postTask auth2 p2) := by
  refine ⟨rfl, ?_, ?_⟩
  · intro hv
    have h1 : pyFalsy ({ bad with input := some v } : OrgEntry).input = true := by
      simp [pyFalsy, hv]
    have h2 : pyFalsy ({ bad with input := none } : OrgEntry).input = true := rfl
    have hloop := encryptLoop_congr_falsy keyService encrypt xs
      { bad with input := some v } { bad with input := none } post rfl rfl h1 h2
    have hempty : (xs ++ ({ bad with input := some v } : OrgEntry) :: post).isEmpty = false := by
      cases xs <;> rfl
    have hempty2 : (xs ++ ({ bad with input := none } : OrgEntry) :: post).isEmpty = false := by
      cases xs <;> rfl
    simp only [proxy_task, hempty, hempty2, Bool.false_eq_true, if_false, hloop]
  · intro hbad c hc auth2 p2
    have hempty : (xs ++ bad :: post).isEmpty = false := by cases xs <;> rfl
    have hnotok := encryptLoop_not_ok keyService encrypt xs bad post hbad
    have hcalls : (proxy_task keyService encrypt postResult (some a)
        { payload with organizations := some (xs ++ bad :: post) }).calls =
        (encryptLoop keyService encrypt (xs ++ bad :: post)).calls := by
      simp only [proxy_task, hempty, Bool.false_eq_true, if_false]
      cases hloop : encryptLoop keyService encrypt (xs ++ bad :: post) with
      | ok enc2 calls2 last2 => exact absurd hloop (hnotok enc2 calls2 last2)
      | abortNoInput calls2 => rfl
      | abortRaise calls2 => rfl
    rw [hcalls] at hc
    obtain ⟨oid, rfl⟩ :=
      encryptLoop_calls_are_lookups keyService encrypt (xs ++ bad :: post) c hc
    intro hfalse
    exact Call.noConfusion hfalse

/-- The matching predicate of the catalog query holds of a rule exactly when
the rule is the queried triple: a Rule is nothing but its triple. -/
theorem rule_matches_iff (resource : String) (scope : Scope) (operation : Operation)
    (rl : Rule) :
    (rl.resource == resource && rl.scope == scope && rl.operation == operation) = true ↔
      rl = { resource := resource, scope := scope, operation := operation } := by
  cases rl
  simp [Rule.mk.injEq, and_assoc]

/-- The catalog query returns the queried triple itself when the catalog
holds it, and nothing otherwise. -/
theorem get_by_spec (catalog : List Rule) (resource : String) (scope : Scope)
    (operation : Operation) :
    Rule.get_by_ catalog resource scope operation =
      if ({ resource := resource, scope := scope, operation := operation } : Rule) ∈ catalog
      then some { resource := resource, scope := scope, operation := operation }
      else none := by
  induction catalog with
  | nil => rfl
  | cons x xs ih =>
    rw [Rule.get_by_, List.find?_cons]
    by_cases hx : x = ({ resource := resource, scope := scope, operation := operation } : Rule)
    · rw [(rule_matches_iff resource scope operation x).mpr hx,
        if_pos (hx ▸ List.mem_cons_self x xs), hx]
    · have hneg : (x.resource == resource && x.scope == scope &&
          x.operation == operation) = false :=
        Bool.eq_false_iff.mpr fun hpos =>
          hx ((rule_matches_iff resource scope operation x).mp hpos)
      rw [hneg]
      have hfold : List.find?
          (fun rl => rl.resource == resource && rl.scope == scope &&
            rl.operation == operation) xs =
          Rule.get_by_ xs resource scope operation := rfl
      rw [hfold, ih]
      by_cases hmem :
          ({ resource := resource, scope := scope, operation := operation } : Rule) ∈ xs
      · rw [if_pos hmem, if_pos (List.mem_cons_of_mem x hmem)]
      · rw [if_neg hmem, if_neg (by
          intro hc
          rcases List.mem_cons.mp hc with hc | hc
          · exact hx hc.symm
          · exact hmem hc)]

/-- Membership in the effective rules splits into a direct rule or a rule of
one of the roles. -/
theorem mem_effectiveRules_iff (u : User) (rl : Rule) :
    rl ∈ u.effectiveRules ↔ rl ∈ u.rules ∨ ∃ role ∈ u.roles, rl ∈ role.rules := by
  simp [User.effectiveRules, List.mem_append, List.mem_flatten]

/-- C5: for a user whose direct and role-derived rules all come from the
catalog, the permission check answers true exactly when the queried triple is
among the effective rules, with no wildcard or scope-widening match; and
granting the user any rule for a different triple leaves the answer for the
queried triple unchanged. -/
theorem user_can_iff (catalog : List Rule) (u : User) (r : String) (s : Scope)
    (o : Operation)
    (hclosed : ∀ rl ∈ u.effectiveRules, rl ∈ catalog) :
    (User.can catalog u r s o = true ↔
      ({ resource := r, scope := s, operation := o } : Rule) ∈ u.effectiveRules) ∧
    ∀ extra : Rule, extra ≠ { resource := r, scope := s, operation := o } →
      User.can catalog { u with rules := extra :: u.rules } r s o =
        User.can catalog u r s o := by
  constructor
  · rw [User.can, get_by_spec]
    by_cases hmem : ({ resource := r, scope := s, operation := o } : Rule) ∈ catalog
    · rw [if_pos hmem]
      simp only [Bool.or_eq_true, List.any_eq_true, mem_effectiveRules_iff]
      constructor
      · intro h
        rcases h with h | ⟨role, hrole, hin⟩
        · exact Or.inl (by simpa using h)
        · exact Or.inr ⟨role, hrole, by simpa using hin⟩
      · intro h
        rcases h with h | ⟨role, hrole, hin⟩
        · exact Or.inl (by simpa using h)
        · exact Or.inr ⟨role, hrole, by simpa using hin⟩
    · rw [if_neg hmem]
      constructor
      · intro h; exact absurd h (by simp)
      · intro h; exact absurd (hclosed _ h) hmem
  · intro extra hextra
    rw [User.can, User.can, get_by_spec]
    by_cases hmem : ({ resource := r, scope := s, operation := o } : Rule) ∈ catalog
    · rw [if_pos hmem]
      simp only [List.contains_cons]
      have hne : (({ resource := r, scope := s, operation := o } : Rule) == extra) = false := by
        simpa using Ne.symm hextra
      rw [hne, Bool.false_or]
    · rw [if_neg hmem]

/-- C8: the generic handler forwards with the same path appended to the
coordinator base url, the same query parameters, the same JSON body and the
same Authorization header value, and the outbound method is the inbound one
for GET, POST, PATCH, PUT and DELETE, defaulting to GET when the lowercased
method name is not in the dispatch table. -/
theorem proxy_generic_preserves_request (netResult : HttpResult)
    (baseUrl methodName path : String) (params : List (String × String))
    (body : Option JValue) (a : String) :
    ((proxy netResult baseUrl methodName path params body (some a)).call.params = params) ∧
    ((proxy netResult baseUrl methodName path params body (some a)).call.body = body) ∧
    ((proxy netResult baseUrl methodName path params body (some a)).call.auth = some a) ∧
    ((proxy netResult baseUrl methodName path params body (some a)).call.url =
      baseUrl ++ "/" ++ path) ∧
    (methodName = "GET" →
      (proxy netResult baseUrl methodName path params body (some a)).call.method = .get) ∧
    (methodName = "POST" →
      (proxy netResult baseUrl methodName path params body (some a)).call.method = .post) ∧
    (methodName = "PATCH" →
      (proxy netResult baseUrl methodName path params body (some a)).call.method = .patch) ∧
    (methodName = "PUT" →
      (proxy netResult baseUrl methodName path params body (some a)).call.method = .put) ∧
    (methodName = "DELETE" →
      (proxy netResult baseUrl methodName path params body (some a)).call.method = .delete) ∧
    (List.lookup (asciiLower methodName) methodTable = none →
      (proxy netResult baseUrl methodName path params body (some a)).call.method = .get) := by
  refine ⟨rfl, rfl, rfl, rfl, ?_, ?_, ?_, ?_, ?_, ?_⟩
  · intro h; subst h
    show (List.lookup (asciiLower "GET") methodTable).getD .get = HttpMethod.get
    decide
  · intro h; subst h
    show (List.lookup (asciiLower "POST") methodTable).getD .get = HttpMethod.post
    decide
  · intro h; subst h
    show (List.lookup (asciiLower "PATCH") methodTable).getD .get = HttpMethod.patch
    decide
  · intro h; subst h
    show (List.lookup (asciiLower "PUT") methodTable).getD .get = HttpMethod.put
    decide
  · intro h; subst h
    show (List.lookup (asciiLower "DELETE") methodTable).getD .get = HttpMethod.delete
    decide
  · intro h
    show (List.lookup (asciiLower methodName) methodTable).getD .get = HttpMethod.get
    rw [h]
    rfl

/-- C9: on an inbound request without an Authorization header the generic
handler logs the condition and still issues the outbound call, with the
header value Python None, which the requests library drops, so the outbound
credential is absent and in particular is not the empty string. -/
theorem proxy_no_auth_forwards_without_credential (netResult : HttpResult)
    (baseUrl methodName path : String) (params : List (String × String))
    (body : Option JValue) :
    ((proxy netResult baseUrl methodName path params body none).warnedNoAuth = true) ∧
    ((proxy netResult baseUrl methodName path params body none).call.auth = none) ∧
    ((proxy netResult baseUrl methodName path params body none).call.auth ≠ some "") ∧
    ((proxy netResult baseUrl methodName path params body none).call.url =
      baseUrl ++ "/" ++ path) ∧
    ((proxy netResult baseUrl methodName path params body none).call.params = params) ∧
    ((proxy netResult baseUrl methodName path params body none).call.body = body) := by
  refine ⟨rfl, rfl, ?_, rfl, rfl, rfl⟩
  intro h
  exact Option.noConfusion h

/-! Witnesses: each applies its theorem at a concrete input, discharging the
hypotheses there. -/

/-- Witness for C1 at the spec example: both inputs are replaced by their
encryptions under pubA and pubB and the rewritten payload is posted with the
original credential. -/
theorem proxy_task_forwards_encrypted_witness :
    ({ organizations := some demoEntries, rest := [] } : TaskPayload).organizations =
        some demoEntries ∧
    demoEntries ≠ [] ∧
    (∀ e ∈ demoEntries, pyFalsy e.input = false ∧
      (demoKeyService e.id).isResp = true ∧
      (fetchedKey demoKeyService e).isSome = true) ∧
    proxy_task demoKeyService demoEncrypt (.resp (.str "created")) (some "tok")
        { organizations := some demoEntries, rest := [] } =
      { calls := (demoEntries.map fun e => Call.keyLookup e.id) ++
          [Call.postTask "tok"
            { organizations := some (demoEntries.map (encryptEntry demoKeyService demoEncrypt)),
              rest := [] }],
        outcome := .json (.str "created") } :=
  ⟨rfl, by simp [demoEntries], by decide,
    proxy_task_forwards_encrypted demoKeyService demoEncrypt "tok"
      { organizations := some demoEntries, rest := [] } demoEntries (.str "created")
      rfl (by simp [demoEntries]) (by decide)⟩

/-- Witness for C3: with a processable first entry and a second entry without
input, only the first key lookup is issued and the request aborts before the
third entry and before any coordinator contact. -/
theorem proxy_task_sequential_abort_witness :
    demoSeqPayload.organizations = some (demoSeqPre ++ demoSeqBad :: demoSeqPost) ∧
    (∀ e ∈ demoSeqPre, pyFalsy e.input = false ∧ (demoKeyService e.id).isResp = true) ∧
    (pyFalsy demoSeqBad.input = true →
      proxy_task demoKeyService demoEncrypt (.resp (.str "never")) (some "tok")
          demoSeqPayload =
        { calls := demoSeqPre.map fun e => Call.keyLookup e.id,
          outcome := .noneReturn }) :=
  ⟨rfl, by decide,
    (proxy_task_sequential_abort demoKeyService demoEncrypt (.resp (.str "never")) "tok"
      demoSeqPayload demoSeqPre demoSeqPost demoSeqBad rfl (by decide)).1⟩

/-- Witness for C5 at a concrete catalog, user and triple. -/
theorem user_can_iff_witness :
    (∀ rl ∈ demoUser.effectiveRules, rl ∈ demoCatalog) ∧
    ((User.can demoCatalog demoUser "task" .global .create = true ↔
      ({ resource := "task", scope := .global, operation := .create } : Rule) ∈
        demoUser.effectiveRules) ∧
    ∀ extra : Rule,
      extra ≠ { resource := "task", scope := .global, operation := .create } →
      User.can demoCatalog { demoUser with rules := extra :: demoUser.rules }
          "task" .global .create =
        User.can demoCatalog demoUser "task" .global .create) :=
  ⟨by intro rl hrl
      simp only [User.effectiveRules, demoUser, demoRole, List.map_cons, List.map_nil,
        List.flatten, List.append_nil, List.mem_append, List.mem_cons,
        List.not_mem_nil, or_false] at hrl
      rcases hrl with rfl | rfl <;> simp [demoCatalog],
    user_can_iff demoCatalog demoUser "task" .global .create (by
      intro rl hrl
      simp only [User.effectiveRules, demoUser, demoRole, List.map_cons, List.map_nil,
        List.flatten, List.append_nil, List.mem_append, List.mem_cons,
        List.not_mem_nil, or_false] at hrl
      rcases hrl with rfl | rfl <;> simp [demoCatalog])⟩

/-- Witness for C8 at a concrete PATCH request. -/
theorem proxy_generic_preserves_request_witness :
    ((proxy (.resp (.str "ok")) "http://srv" "PATCH" "organization/4"
        [("page", "2")] (some (.str "body")) (some "tok")).call.params = [("page", "2")]) ∧
    ((proxy (.resp (.str "ok")) "http://srv" "PATCH" "organization/4"
        [("page", "2")] (some (.str "body")) (some "tok")).call.body = some (.str "body")) ∧
    ((proxy (.resp (.str "ok")) "http://srv" "PATCH" "organization/4"
        [("page", "2")] (some (.str "body")) (some "tok")).call.auth = some "tok") ∧
    ((proxy (.resp (.str "ok")) "http://srv" "PATCH" "organization/4"
        [("page", "2")] (some (.str "body")) (some "tok")).call.url =
      "http://srv" ++ "/" ++ "organization/4") ∧
    ("PATCH" = "GET" →
      (proxy (.resp (.str "ok")) "http://srv" "PATCH" "organization/4"
        [("page", "2")] (some (.str "body")) (some "tok")).call.method = .get) ∧
    ("PATCH" = "POST" →
      (proxy (.resp (.str "ok")) "http://srv" "PATCH" "organization/4"
        [("page", "2")] (some (.str "body")) (some "tok")).call.method = .post) ∧
    ("PATCH" = "PATCH" →
      (proxy (.resp (.str "ok")) "http://srv" "PATCH" "organization/4"
        [("page", "2")] (some (.str "body")) (some "tok")).call.method = .patch) ∧
    ("PATCH" = "PUT" →
      (proxy (.resp (.str "ok")) "http://srv" "PATCH" "organization/4"
        [("page", "2")] (some (.str "body")) (some "tok")).call.method = .put) ∧
    ("PATCH" = "DELETE" →
      (proxy (.resp (.str "ok")) "http://srv" "PATCH" "organization/4"
        [("page", "2")] (some (.str "body")) (some "tok")).call.method = .delete) ∧
    (List.lookup (asciiLower "PATCH") methodTable = none →
      (proxy (.resp (.str "ok")) "http://srv" "PATCH" "organization/4"
        [("page", "2")] (some (.str "body")) (some "tok")).call.method = .get) :=
  proxy_generic_preserves_request (.resp (.str "ok")) "http://srv" "PATCH"
    "organization/4" [("page", "2")] (some (.str "body")) "tok"

/-- Witness for C9 at a concrete credential-less GET. -/
theorem proxy_no_auth_forwards_without_credential_witness :
    ((proxy (.resp (.str "ok")) "http://srv" "GET" "result"
        [("task_id", "7")] none none).warnedNoAuth = true) ∧
    ((proxy (.resp (.str "ok")) "http://srv" "GET" "result"
        [("task_id", "7")] none none).call.auth = none) ∧
    ((proxy (.resp (.str "ok")) "http://srv" "GET" "result"
        [("task_id", "7")] none none).call.auth ≠ some "") ∧
    ((proxy (.resp (.str "ok")) "http://srv" "GET" "result"
        [("task_id", "7")] none none).call.url = "http://srv" ++ "/" ++ "result") ∧
    ((proxy (.resp (.str "ok")) "http://srv" "GET" "result"
        [("task_id", "7")] none none).call.params = [("task_id", "7")]) ∧
    ((proxy (.resp (.str "ok")) "http://srv" "GET" "result"
        [("task_id", "7")] none none).call.body = none) :=
  proxy_no_auth_forwards_without_credential (.resp (.str "ok")) "http://srv" "GET"
    "result" [("task_id", "7")] none

/-- Witness for C10: the empty organizations list, an empty-string input (in
place of an absent one), and the no-relay guarantee, at concrete inputs. -/
theorem proxy_task_falsy_like_absent_witness :
    (proxy_task demoKeyService demoEncrypt (.resp (.str "ok")) (some "tok")
        { organizations := some [], rest := [] } =
      proxy_task demoKeyService demoEncrypt (.resp (.str "ok")) (some "tok")
        { organizations := none, rest := [] }) ∧
    (JValue.truthy (.str "") = false) ∧
    (proxy_task demoKeyService demoEncrypt (.resp (.str "ok")) (some "tok")
        { organizations := some
            ([] ++ ({ id := some (.num 5), input := some (.str ""), rest := [] } : OrgEntry) :: []),
          rest := [] } =
      proxy_task demoKeyService demoEncrypt (.resp (.str "ok")) (some "tok")
        { organizations := some
            ([] ++ ({ id := some (.num 5), input := none, rest := [] } : OrgEntry) :: []),
          rest := [] }) ∧
    (∀ c ∈ (proxy_task demoKeyService demoEncrypt (.resp (.str "ok")) (some "tok")
        { organizations := some
            ([] ++ ({ id := some (.num 5), input := some (.str ""), rest := [] } : OrgEntry) :: []),
          rest := [] }).calls,
      ∀ auth2 p2, c ≠ Call.postTask auth2 p2) :=
  ⟨(proxy_task_falsy_like_absent demoKeyService demoEncrypt (.resp (.str "ok")) "tok"
      { organizations := none, rest := [] } []
      [] { id := some (.num 5), input := some (.str ""), rest := [] } (.str "")).1,
    rfl,
    (proxy_task_falsy_like_absent demoKeyService demoEncrypt (.resp (.str "ok")) "tok"
      { organizations := none, rest := [] } []
      [] { id := some (.num 5), input := none, rest := [] } (.str "")).2.1 rfl,
    (proxy_task_falsy_like_absent demoKeyService demoEncrypt (.resp (.str "ok")) "tok"
      { organizations := none, rest := [] } []
      [] { id := some (.num 5), input := some (.str ""), rest := [] } (.str "")).2.2 rfl⟩

end Vantage6
